import Mathlib

/-!
Verification development for the InboxSorter repository
(src/InboxSorter_v38_12.py, src/migrate.py, src/Export_DB_to_Excel.py).

Python strings are embedded as `List Char`; Python dicts (which preserve
insertion order and keep an overwritten key's original slot) are embedded as
association lists with the in-place-overwriting insert `dictInsert`.
-/

namespace InboxSorter

/-- A Python string, embedded as its list of characters. -/
abbrev Str := List Char

/-- Python `str.lower()`. -/
def strLower (s : Str) : Str := s.map Char.toLower

/-- Python dict assignment `d[k] = v`: overwriting an existing key keeps its
original slot in the iteration order; a new key is appended at the end. -/
def dictInsert {α : Type} (k : Str) (v : α) : List (Str × α) → List (Str × α)
  | [] => [(k, v)]
  | (k', v') :: rest =>
      if k' = k then (k, v) :: rest else (k', v') :: dictInsert k v rest

/-- Value stored in `self.email_rules[addr.lower()]`
(`{"dest": dest, "sender_only": is_sender_only}`). -/
structure EmailRule where
  dest : Str
  sender_only : Bool
deriving DecidableEq, Repr

/-- Value stored in `self.keyword_rules[str(kw).lower()]`
(`{"dest": dest, "field": match_field}`). -/
structure KeywordRule where
  dest : Str
  field : Str
deriving DecidableEq, Repr

def subjectOnlyS : Str := "subject_only".data
def subjectAndBodyS : Str := "subject_and_body".data
def emailMatchS : Str := "EmailMatch".data
def keywordMatchS : Str := "KeywordMatch".data

/-- The match test of one iteration of the keyword loop in
`process_email` (lines 163-168): `field == 'subject_only' and kw in subject`,
elif `field == 'subject_and_body' and (kw in subject or kw in body)`.
`kw in subject` is substring containment, embedded as `List.IsInfix`. -/
def kw_match (info : KeywordRule) (kw subject body : Str) : Bool :=
  if info.field = subjectOnlyS ∧ kw <:+: subject then true
  else if info.field = subjectAndBodyS ∧ (kw <:+: subject ∨ kw <:+: body) then true
  else false

/-- The keyword-rule loop of `process_email` (lines 162-171): iterate the
keyword dict in stored order and return at the first match. -/
def keyword_pass : List (Str × KeywordRule) → Str → Str → Option (Str × Str × Str)
  | [], _, _ => none
  | (kw, info) :: rest, subject, body =>
      if kw_match info kw subject body then some (info.dest, kw, keywordMatchS)
      else keyword_pass rest subject body

/-- The classification decision of `process_email` (lines 152-172):
lower-case subject, body and `(get_smtp_address(item) or "")`; if the sender
is a key of `email_rules` and `not rule_info.get("sender_only") or
sender_email` holds, answer with that rule (EmailMatch); otherwise run the
keyword pass. Returns `(destination, trigger, match_type)` or `none`. -/
def classify (email_rules : List (Str × EmailRule))
    (keyword_rules : List (Str × KeywordRule))
    (subjectRaw bodyRaw : Str) (senderOpt : Option Str) :
    Option (Str × Str × Str) :=
  let subject := strLower subjectRaw
  let body := strLower bodyRaw
  let sender_email := strLower (senderOpt.getD [])
  match List.lookup sender_email email_rules with
  | some rule_info =>
      if rule_info.sender_only = false ∨ sender_email ≠ [] then
        some (rule_info.dest, sender_email, emailMatchS)
      else keyword_pass keyword_rules subject body
  | none => keyword_pass keyword_rules subject body

/-! ## Address-resolution cache (`get_smtp_address`, `save_smtp_cache`,
`load_cache_from_db`), lines 100-147 of src/InboxSorter_v38_12.py. -/

def dbSaveErrorS : Str := "DBSaveError".data

/-- Environment of the cache: `cache_save_interval` from config (line 37)
and whether the SQLite backing store currently accepts writes (the
collaborator behaviour behind the `try` of `save_smtp_cache`). -/
structure CacheEnv where
  cache_save_interval : Nat
  saveOk : Bool

/-- Mutable state touched by the cache code: `self.smtp_cache`,
`self.items_since_last_save`, the rows of the SQLite table `smtp_cache`,
and the lines written to `invalid_logger`. -/
structure CacheState where
  smtp_cache : List (Str × Str)
  items_since_last_save : Nat
  store : List (Str × Str)
  errLog : List Str
deriving DecidableEq, Repr

/-- `save_smtp_cache` (lines 116-127): on success the whole in-memory map
replaces the table and the counter resets to 0; on a backing-store failure a
`DBSaveError` line is logged and cache, counter and table are left as the
write failure left them (the counter reset on line 125 is inside the `try`,
after the write). -/
def save_smtp_cache (saveOk : Bool) (st : CacheState) : CacheState :=
  if saveOk then
    { st with store := st.smtp_cache, items_since_last_save := 0 }
  else
    { st with errLog := st.errLog ++ [dbSaveErrorS] }

/-- Outcome of `sender_obj.GetExchangeUser()` (line 136): a user with a
`PrimarySmtpAddress`, a falsy result, or a raised exception. -/
inductive ResolverOutcome where
  | okAddr (smtp : Str)
  | noUser
  | lookupRaises
deriving DecidableEq, Repr

/-- The fields of an Outlook mail item read by the core:
`Sender.AddressEntryUserType == 0`, `Sender.Address`, the directory-resolver
outcome, `SenderEmailAddress`, `Subject`, `Body`. -/
structure MailItem where
  isExchange : Bool
  address : Str
  resolver : ResolverOutcome
  senderEmailAddress : Str
  subject : Str
  body : Str
deriving DecidableEq, Repr

/-- `get_smtp_address` (lines 129-147). Returns the resolved address
(`none` models the bare `except: return None`) together with the state after
the call. A hit returns the cached value with no state change; a miss that
resolves inserts the pair, bumps the counter and auto-saves once the counter
reaches `cache_save_interval`; a miss whose resolver returns nothing caches
nothing and falls through to `item.SenderEmailAddress`. -/
def get_smtp_address (env : CacheEnv) (st : CacheState) (item : MailItem) :
    Option Str × CacheState :=
  if item.isExchange then
    let ex_addr := strLower item.address
    match List.lookup ex_addr st.smtp_cache with
    | some v => (some v, st)
    | none =>
        match item.resolver with
        | .okAddr smtp =>
            let st1 : CacheState :=
              { st with smtp_cache := dictInsert ex_addr smtp st.smtp_cache,
                        items_since_last_save := st.items_since_last_save + 1 }
            if st1.items_since_last_save ≥ env.cache_save_interval then
              (some smtp, save_smtp_cache env.saveOk st1)
            else (some smtp, st1)
        | .noUser => (some item.senderEmailAddress, st)
        | .lookupRaises => (none, st)
  else (some item.senderEmailAddress, st)

/-- `load_cache_from_db` (lines 100-114): missing database file gives an
empty map; a read failure gives an empty map; otherwise the map is rebuilt
from all rows with `dict(zip(df['ExchangeAddress'].str.lower(),
df['SMTPAddress']))`, i.e. keys lower-cased on read, later duplicates
overwriting earlier ones in place. -/
def load_cache_from_db (dbExists readOk : Bool) (rows : List (Str × Str)) :
    List (Str × Str) :=
  if dbExists = false then []
  else if readOk then
    rows.foldl (fun d p => dictInsert (strLower p.1) p.2 d) []
  else []

/-! ## Action executor (`execute_action`, `get_folder_recursive`),
lines 177-200 of src/InboxSorter_v38_12.py. -/

def toDeleteS : Str := "ToDelete".data
def actionErrorS : Str := "ActionError".data
def bslashC : Char := '\\'

/-- Collaborator behaviour of the Outlook mail object during one action:
whether `item.Delete()` succeeds, whether `item.Move(...)` succeeds, and for
each path segment whether `Folders.Item`-or-`Folders.Add` yields a folder
(false models "not found and creation denied", i.e. `Folders.Add` raising). -/
structure MailEnv where
  deleteOk : Bool
  moveOk : Bool
  segmentOk : Str → Bool

/-- One structured line of the live log written by `execute_action`. -/
inductive LiveEntry where
  | deleted (trigger match_type subject : Str)
  | moved (dest trigger match_type subject : Str)
deriving DecidableEq, Repr

/-- Observable state around one message: its location (`none` = deleted,
`some path` = the folder holding it), the live log and the
`ActionError|dest` lines of the invalid log. -/
structure ExecState where
  location : Option (List Str)
  liveLog : List LiveEntry
  errLog : List (Str × Str)
deriving DecidableEq, Repr

/-- `get_folder_recursive` (lines 192-200): split the destination on `'\'`
and walk segment by segment, finding or creating each child; a segment that
can be neither found nor created makes `Folders.Add` raise, which propagates
(`none`). On success the leaf folder's path is returned. -/
def get_folder_recursive (segmentOk : Str → Bool) (root : List Str)
    (folder_path : Str) : Option (List Str) :=
  (folder_path.splitOn bslashC).foldl
    (fun acc part =>
      match acc with
      | none => none
      | some node => if segmentOk part then some (node ++ [part]) else none)
    (some root)

/-- `execute_action` (lines 177-190): destination `"ToDelete"` deletes the
item and logs a DELETED line; any other destination resolves the folder path
under the inbox and moves the item there, logging a MOVED line; any raised
collaborator failure is caught, logged as `ActionError|dest_name|...`, and
the function returns `false` with the item untouched. -/
def execute_action (env : MailEnv) (st : ExecState) (dest_name : Str)
    (inbox : List Str) (trigger match_type subject : Str) :
    Bool × ExecState :=
  if dest_name = toDeleteS then
    if env.deleteOk then
      (true, { st with location := none,
                       liveLog := st.liveLog ++ [.deleted trigger match_type subject] })
    else
      (false, { st with errLog := st.errLog ++ [(actionErrorS, dest_name)] })
  else
    match get_folder_recursive env.segmentOk inbox dest_name with
    | some dest_folder =>
        if env.moveOk then
          (true, { st with location := some dest_folder,
                           liveLog := st.liveLog ++ [.moved dest_name trigger match_type subject] })
        else
          (false, { st with errLog := st.errLog ++ [(actionErrorS, dest_name)] })
    | none =>
        (false, { st with errLog := st.errLog ++ [(actionErrorS, dest_name)] })

/-! ## Rule loading (`load_data`), lines 75-98 of src/InboxSorter_v38_12.py.
The whole sheet loop sits inside one `try`; the `except` logs a single
`DataLoaderError` line. -/

def emailS : Str := "Email".data
def keywordS : Str := "Keyword".data
def researchEmailS : Str := "ResearchEmail".data
def dataLoaderErrorS : Str := "DataLoaderError".data

/-- One spreadsheet cell as pandas hands it to the loop: missing (`NaN`),
a Python string, or a non-string value (whose `str()` is `repr` and on which
`.lower()` raises `AttributeError`). -/
inductive Cell where
  | null
  | pystr (s : Str)
  | other (repr : Str)
deriving DecidableEq, Repr

/-- Python `str(kw)` on a non-null cell. -/
def Cell.pyStr : Cell → Str
  | .null => "nan".data
  | .pystr s => s
  | .other r => r

/-- `df[col].dropna()`. -/
def dropna (cs : List Cell) : List Cell :=
  cs.filter (fun c => match c with | .null => false | _ => true)

/-- `.unique()`: keep the first occurrence of each value, in order. -/
def pyUniqueAux : List Cell → List Cell → List Cell
  | [], _ => []
  | c :: rest, seen =>
      if c ∈ seen then pyUniqueAux rest seen
      else c :: pyUniqueAux rest (c :: seen)

def pyUnique (cs : List Cell) : List Cell := pyUniqueAux cs []

/-- One sheet: its columns by name. -/
abbrev Sheet := List (Str × List Cell)

/-- The workbook behind `pd.ExcelFile(self.xls_path)`: sheets by name. -/
abbrev Workbook := List (Str × Sheet)

/-- One `sheet_map` entry from the JSON config. A missing optional field is
`none`; reading a required missing field (`info['sheet']`,
`info['destination_name']`, `info['column']`) raises `KeyError`. -/
structure SheetInfo where
  sheet : Option Str
  destination_name : Option Str
  column : Option Str
  columns : Option (List Str)
  match_field : Option Str
deriving DecidableEq, Repr

/-- The two rule tables `self.email_rules` and `self.keyword_rules`. -/
structure Tables where
  email_rules : List (Str × EmailRule)
  keyword_rules : List (Str × KeywordRule)
deriving DecidableEq, Repr

/-- `df[col]`: `KeyError` (`none`) when `col` is `None` or absent. -/
def getCol (sh : Sheet) (c : Option Str) : Option (List Cell) :=
  match c with
  | none => none
  | some name => List.lookup name sh

/-- The inner loop of the email branch (lines 87-89): insert each address
lower-cased; a non-string address makes `addr.lower()` raise, keeping the
inserts made so far (`false` = exception escaped here). -/
def insertAddrs (rule_name dest : Str) : List Cell → Tables → Tables × Bool
  | [], t => (t, true)
  | Cell.pystr s :: rest, t =>
      let rule : EmailRule := ⟨dest, decide (rule_name = researchEmailS)⟩
      insertAddrs rule_name dest rest
        { t with email_rules := dictInsert (strLower s) rule t.email_rules }
  | _ :: _, t => (t, false)

/-- The inner loop of the keyword branch (lines 95-96): `str(kw).lower()`
never raises. -/
def insertKws (dest field : Str) (cells : List Cell) (t : Tables) : Tables :=
  cells.foldl
    (fun acc c =>
      { acc with keyword_rules :=
          dictInsert (strLower c.pyStr) ⟨dest, field⟩ acc.keyword_rules })
    t

/-- The column loop of the keyword branch (lines 93-96); a missing column
raises `KeyError` out of the loop. -/
def insertKwCols (sh : Sheet) (dest field : Str) :
    List (Option Str) → Tables → Tables × Bool
  | [], t => (t, true)
  | c :: rest, t =>
      match getCol sh c with
      | some cells =>
          insertKwCols sh dest field rest
            (insertKws dest field (pyUnique (dropna cells)) t)
      | none => (t, false)

/-- One iteration of `for rule_name, info in sheet_map.items()`
(lines 80-96). `false` means an exception escaped this iteration, with the
table mutations made before the raise retained. -/
def loadEntry (wb : Workbook) (rule_name : Str) (info : SheetInfo)
    (t : Tables) : Tables × Bool :=
  match info.sheet with
  | none => (t, false)
  | some sname =>
      match List.lookup sname wb with
      | none => (t, false)
      | some sh =>
          match info.destination_name with
          | none => (t, false)
          | some dest =>
              if emailS <:+: rule_name ∧ ¬ keywordS <:+: rule_name then
                match getCol sh info.column with
                | none => (t, false)
                | some cells =>
                    insertAddrs rule_name dest (pyUnique (dropna cells)) t
              else
                let cols : List (Option Str) :=
                  match info.columns with
                  | some l => l.map some
                  | none => [info.column]
                let field := info.match_field.getD subjectOnlyS
                insertKwCols sh dest field cols t

/-- The sheet loop: the first escaping exception stops the whole loop. -/
def loadSheets (wb : Workbook) :
    List (Str × SheetInfo) → Tables → Tables × Bool
  | [], t => (t, true)
  | (rn, info) :: rest, t =>
      match loadEntry wb rn info t with
      | (t', true) => loadSheets wb rest t'
      | (t', false) => (t', false)

/-- `load_data` (lines 75-98): the single `try` wraps opening the workbook
and the entire sheet loop; on any exception one `DataLoaderError` line is
logged (`some dataLoaderErrorS`) and the method returns with whatever rules
were inserted before the raise. -/
def load_data (xlsOk : Bool) (wb : Workbook)
    (sheet_map : List (Str × SheetInfo)) (t : Tables) :
    Tables × Option Str :=
  if xlsOk then
    match loadSheets wb sheet_map t with
    | (t', true) => (t', none)
    | (t', false) => (t', some dataLoaderErrorS)
  else (t, some dataLoaderErrorS)

/-- `process_email` (lines 149-175): resolve the sender through the cache,
classify, and on a match run `execute_action`; no match (or a classification
failure) returns `false` with the message untouched. -/
def process_email (cenv : CacheEnv) (menv : MailEnv) (t : Tables)
    (inbox : List Str) (cst : CacheState) (est : ExecState)
    (item : MailItem) : Bool × CacheState × ExecState :=
  let r := get_smtp_address cenv cst item
  match classify t.email_rules t.keyword_rules item.subject item.body r.1 with
  | some dti =>
      let e := execute_action menv est dti.1 inbox dti.2.1 dti.2.2 item.subject
      (e.1, r.2, e.2)
  | none => (false, r.2, est)

/-! ## Helper lemmas -/

/-- A prefix of keyword rules none of which matches is skipped by the
keyword pass. -/
lemma keyword_pass_append_of_no_match (kr1 l : List (Str × KeywordRule))
    (s b : Str) (h : ∀ p ∈ kr1, kw_match p.2 p.1 s b = false) :
    keyword_pass (kr1 ++ l) s b = keyword_pass l s b := by
  induction kr1 with
  | nil => rfl
  | cons hd tl ih =>
      obtain ⟨kw, info⟩ := hd
      have hhd : kw_match info kw s b = false := h (kw, info) (by simp)
      simp only [List.cons_append, keyword_pass, hhd, Bool.false_eq_true,
        if_false]
      exact ih fun p hp => h p (by simp [hp])

/-- `dictInsert` on a key already present keeps the key sequence (and hence
the overwritten key's slot) unchanged. -/
lemma dictInsert_keys_of_mem {α : Type} (k : Str) (v : α)
    (d : List (Str × α)) (h : k ∈ d.map Prod.fst) :
    (dictInsert k v d).map Prod.fst = d.map Prod.fst := by
  induction d with
  | nil => simp at h
  | cons hd tl ih =>
      obtain ⟨k', v'⟩ := hd
      by_cases hk : k' = k
      · simp [dictInsert, hk]
      · have hmem : k ∈ tl.map Prod.fst := by
          rcases List.mem_cons.mp h with h1 | h1
          · exact absurd h1.symm hk
          · exact h1
        simp [dictInsert, hk, ih hmem]

/-- The empty keyword matches any subject/body under either valid scope. -/
lemma kw_match_nil (info : KeywordRule) (s b : Str)
    (hf : info.field = subjectOnlyS ∨ info.field = subjectAndBodyS) :
    kw_match info [] s b = true := by
  have hinf : ([] : Str) <:+: s := ⟨[], s, by simp⟩
  rcases hf with hf | hf
  · simp [kw_match, hf, hinf]
  · have hne : info.field ≠ subjectOnlyS := by
      rw [hf]; decide
    simp [kw_match, hf, hne, hinf]

/-- If the keyword table holds an entry with the empty keyword (and a valid
scope), the keyword pass never returns `none`. -/
lemma keyword_pass_ne_none_of_nil_key (kr : List (Str × KeywordRule))
    (s b : Str) (info : KeywordRule)
    (hl : List.lookup ([] : Str) kr = some info)
    (hf : info.field = subjectOnlyS ∨ info.field = subjectAndBodyS) :
    keyword_pass kr s b ≠ none := by
  induction kr with
  | nil => simp [List.lookup] at hl
  | cons hd tl ih =>
      obtain ⟨k, i⟩ := hd
      by_cases hm : kw_match i k s b = true
      · simp [keyword_pass, hm]
      · by_cases hk : k = ([] : Str)
        · exfalso
          have : i = info := by
            subst hk
            simpa [List.lookup] using hl
          subst this
          subst hk
          exact hm (kw_match_nil i s b hf)
        · have hl' : List.lookup ([] : Str) tl = some info := by
            have hne : (([] : Str) == k) = false := by
              rw [beq_eq_false_iff_ne]
              exact fun hh => hk hh.symm
            simpa [List.lookup, hne] using hl
          simp only [keyword_pass, hm, Bool.false_eq_true, if_false]
          exact ih hl'

/-! ## Claims about the classifier -/

/-- Claim C1, counterexample: the sender-rule table holds the key `""` with
`sender_only = true`; for a message whose resolved sender is `""` the guard
`not sender_only or sender_email` is false, so `classify` falls through to
the (empty) keyword pass and returns `none` instead of the sender rule's
destination with `EmailMatch`. -/
theorem C1_counterexample :
    List.lookup ([] : Str)
        [(([] : Str), (⟨"x".data, true⟩ : EmailRule))] =
      some (⟨"x".data, true⟩ : EmailRule) ∧
    classify [(([] : Str), ⟨"x".data, true⟩)] [] "s".data "b".data
        (some []) = none := by
  constructor
  · decide
  · decide

/-- Claim C1 (amended): whenever the lower-cased resolved sender is a key of
the sender-rule table AND the rule's guard holds (`sender_only` is false or
the sender is non-empty), `classify` returns that rule's destination with
match type `EmailMatch` and the sender as trigger, for every keyword table
and every subject and body — so no keyword rule influences the result. -/
theorem C1_sender_rule_short_circuits
    (email_rules : List (Str × EmailRule))
    (keyword_rules : List (Str × KeywordRule))
    (subjectRaw bodyRaw : Str) (senderOpt : Option Str)
    (rule_info : EmailRule)
    (hk : List.lookup (strLower (senderOpt.getD [])) email_rules =
      some rule_info)
    (hg : rule_info.sender_only = false ∨ strLower (senderOpt.getD []) ≠ []) :
    classify email_rules keyword_rules subjectRaw bodyRaw senderOpt =
      some (rule_info.dest, strLower (senderOpt.getD []), emailMatchS) := by
  simp only [classify, hk, hg, if_true]

/-- Witness for C1: a concrete sender rule fires regardless of a keyword
table that would also match. -/
theorem C1_sender_rule_short_circuits_witness :
    classify [("a".data, ⟨"Archive".data, false⟩)]
        [("invoice".data, ⟨"Finance".data, subjectOnlyS⟩)]
        "Invoice attached".data "b".data (some "A".data) =
      some ("Archive".data, strLower ((some "A".data).getD []), emailMatchS) :=
  C1_sender_rule_short_circuits _ _ _ _ _ ⟨"Archive".data, false⟩
    (by decide) (Or.inl rfl)

/-- Claim C5: (1) when no sender rule matches, `classify` walks the keyword
table in stored order and returns the first matching rule's destination with
`KeywordMatch` and the keyword as trigger; (2) overwriting an existing
keyword key with `dictInsert` keeps the key sequence — and hence that
keyword's position in the iteration order — unchanged. -/
theorem C5_keyword_order_first_match :
    (∀ (email_rules : List (Str × EmailRule))
       (kr1 kr2 : List (Str × KeywordRule)) (kw : Str) (info : KeywordRule)
       (subjectRaw bodyRaw : Str) (senderOpt : Option Str),
       List.lookup (strLower (senderOpt.getD [])) email_rules = none →
       (∀ p ∈ kr1,
         kw_match p.2 p.1 (strLower subjectRaw) (strLower bodyRaw) = false) →
       kw_match info kw (strLower subjectRaw) (strLower bodyRaw) = true →
       classify email_rules (kr1 ++ (kw, info) :: kr2) subjectRaw bodyRaw
           senderOpt =
         some (info.dest, kw, keywordMatchS)) ∧
    (∀ (d : List (Str × KeywordRule)) (k : Str) (v : KeywordRule),
       k ∈ d.map Prod.fst →
       (dictInsert k v d).map Prod.fst = d.map Prod.fst) := by
  constructor
  · intro email_rules kr1 kr2 kw info subjectRaw bodyRaw senderOpt hnone
      hskip hmatch
    simp only [classify, hnone]
    rw [keyword_pass_append_of_no_match _ _ _ _ hskip]
    simp [keyword_pass, hmatch]
  · intro d k v h
    exact dictInsert_keys_of_mem k v d h

/-- Witness for C5: with two keyword rules the first matching one (in stored
order) wins even though the later one also matches, and overwriting the
first keyword keeps it in front. -/
theorem C5_keyword_order_first_match_witness :
    classify []
        ([("report".data, ⟨"Reports".data, subjectOnlyS⟩)] ++
          ("invoice".data, (⟨"Finance".data, subjectOnlyS⟩ : KeywordRule)) ::
          [("voice".data, ⟨"Calls".data, subjectOnlyS⟩)])
        "Invoice attached".data "b".data none =
      some ("Finance".data, "invoice".data, keywordMatchS) ∧
    (dictInsert "report".data (⟨"Misc".data, subjectAndBodyS⟩ : KeywordRule)
        [("report".data, ⟨"Reports".data, subjectOnlyS⟩),
         ("invoice".data, ⟨"Finance".data, subjectOnlyS⟩)]).map Prod.fst =
      [("report".data, (⟨"Reports".data, subjectOnlyS⟩ : KeywordRule)),
       ("invoice".data, ⟨"Finance".data, subjectOnlyS⟩)].map Prod.fst :=
  ⟨C5_keyword_order_first_match.1 _ _ _ _ _ _ _ _ (by decide) (by decide)
      (by decide),
   C5_keyword_order_first_match.2 _ _ _ (by decide)⟩

/-- Claim C10: if the keyword table holds an entry whose keyword is the
empty string (with a valid match scope), `classify` never returns `none`:
the empty keyword is a substring of every subject and body, so either a
sender rule answers, an earlier keyword rule answers, or that entry does. -/
theorem C10_empty_keyword_always_matches
    (email_rules : List (Str × EmailRule))
    (keyword_rules : List (Str × KeywordRule))
    (subjectRaw bodyRaw : Str) (senderOpt : Option Str) (info : KeywordRule)
    (hl : List.lookup ([] : Str) keyword_rules = some info)
    (hf : info.field = subjectOnlyS ∨ info.field = subjectAndBodyS) :
    classify email_rules keyword_rules subjectRaw bodyRaw senderOpt ≠
      none := by
  have hkp := keyword_pass_ne_none_of_nil_key keyword_rules
    (strLower subjectRaw) (strLower bodyRaw) info hl hf
  simp only [classify]
  cases hm : List.lookup (strLower (senderOpt.getD [])) email_rules with
  | none => exact hkp
  | some ri =>
      by_cases hg : ri.sender_only = false ∨ strLower (senderOpt.getD []) ≠ []
      · simp [hg]
      · simp only [hg, if_false]
        exact hkp

/-- Witness for C10: an empty-keyword rule catches a message matching
nothing else. -/
theorem C10_empty_keyword_always_matches_witness :
    classify [] [(([] : Str), ⟨"CatchAll".data, subjectOnlyS⟩)]
        "hello".data "b".data none ≠ none :=
  C10_empty_keyword_always_matches _ _ _ _ _ ⟨"CatchAll".data, subjectOnlyS⟩
    (by decide) (Or.inl rfl)

/-! ## Association-list lemmas for the cache -/

/-- Number of rows of the table carrying a given key. -/
def countKey (k : Str) (l : List (Str × Str)) : Nat :=
  (l.filter fun p => decide (p.1 = k)).length

lemma lookup_none_keys {α : Type} (k : Str) (l : List (Str × α))
    (h : List.lookup k l = none) : ∀ p ∈ l, p.1 ≠ k := by
  induction l with
  | nil => simp
  | cons hd tl ih =>
      obtain ⟨a, b⟩ := hd
      rw [List.lookup_cons] at h
      intro p hp
      cases hb : (k == a) with
      | true =>
          rw [hb] at h
          exact Option.noConfusion h
      | false =>
          rw [hb] at h
          have hka : k ≠ a := by
            rw [beq_eq_false_iff_ne] at hb
            exact hb
          rcases List.mem_cons.mp hp with h1 | h1
          · rw [h1]
            exact fun hh => hka hh.symm
          · exact ih h p h1

lemma dictInsert_of_not_mem {α : Type} (k : Str) (v : α)
    (d : List (Str × α)) (h : ∀ p ∈ d, p.1 ≠ k) :
    dictInsert k v d = d ++ [(k, v)] := by
  induction d with
  | nil => rfl
  | cons hd tl ih =>
      obtain ⟨k', v'⟩ := hd
      have hne : k' ≠ k := h (k', v') (by simp)
      simp only [dictInsert, hne, if_false, List.cons_append]
      rw [ih fun p hp => h p (by simp [hp])]

lemma lookup_append_right {α : Type} (k : Str) (l1 l2 : List (Str × α))
    (h : List.lookup k l1 = none) :
    List.lookup k (l1 ++ l2) = List.lookup k l2 := by
  induction l1 with
  | nil => rfl
  | cons hd tl ih =>
      obtain ⟨a, b⟩ := hd
      rw [List.lookup_cons] at h
      rw [List.cons_append, List.lookup_cons]
      cases hb : (k == a) with
      | true =>
          rw [hb] at h
          exact Option.noConfusion h
      | false =>
          rw [hb] at h
          exact ih h

lemma countKey_append (k : Str) (l1 l2 : List (Str × Str)) :
    countKey k (l1 ++ l2) = countKey k l1 + countKey k l2 := by
  simp [countKey, List.filter_append]

lemma countKey_eq_zero (k : Str) (l : List (Str × Str))
    (h : List.lookup k l = none) : countKey k l = 0 := by
  have hk := lookup_none_keys k l h
  simp only [countKey, List.length_eq_zero]
  rw [List.filter_eq_nil_iff]
  intro p hp
  simpa using hk p hp

/-- A successful resolution of a previously-unseen address appends exactly
one pair to the in-memory map. -/
lemma get_smtp_cache_insert (env : CacheEnv) (st : CacheState)
    (item : MailItem) (smtp : Str) (hex : item.isExchange = true)
    (hm : List.lookup (strLower item.address) st.smtp_cache = none)
    (hr : item.resolver = .okAddr smtp) :
    (get_smtp_address env st item).2.smtp_cache =
      dictInsert (strLower item.address) smtp st.smtp_cache := by
  simp only [get_smtp_address, hex, if_true, hm, hr]
  by_cases hc :
      st.items_since_last_save + 1 ≥ env.cache_save_interval <;>
    by_cases hsv : env.saveOk <;>
      simp [hc, hsv, save_smtp_cache]

/-! ## Claims about the cache -/

def cexEnv : CacheEnv := ⟨1, false⟩
def cexSt0 : CacheState := ⟨[], 0, [], []⟩
def cexItemA : MailItem := ⟨true, "a".data, .okAddr "x".data, "b".data, [], []⟩
def cexItemHit : MailItem :=
  ⟨true, "a".data, .lookupRaises, "b".data, [], []⟩
def cexSt1 : CacheState := (get_smtp_address cexEnv cexSt0 cexItemA).2

/-- Claim C4, counterexample: with `cache_save_interval = 1` and a failing
backing store, the first successful resolution triggers a flush that fails
and leaves the counter at 1; a subsequent cache hit is a resolve call that
triggers no flush (the state, store and logs are fully unchanged) yet after
it the pending counter is NOT strictly below the threshold. -/
theorem C4_counterexample :
    (get_smtp_address cexEnv cexSt0 cexItemA).1 = some "x".data ∧
    (get_smtp_address cexEnv cexSt1 cexItemHit).2 = cexSt1 ∧
    ¬ cexSt1.items_since_last_save < cexEnv.cache_save_interval := by
  refine ⟨by decide, by decide, by decide⟩

/-- Claim C4 (amended): when backing-store writes succeed and the pending
counter is below the threshold, a cache hit returns the cached value with no
change at all to the state (so no store write and no counter change), and a
successfully resolved miss flushes exactly when the incremented counter
reaches `cache_save_interval` (writing the whole map and resetting the
counter to 0) and otherwise leaves the store untouched with the counter
still strictly below the threshold. -/
theorem C4_flush_exactly_at_interval (env : CacheEnv) (st : CacheState)
    (item : MailItem) (hs : env.saveOk = true)
    (_hlt : st.items_since_last_save < env.cache_save_interval) :
    (∀ v, item.isExchange = true →
       List.lookup (strLower item.address) st.smtp_cache = some v →
       get_smtp_address env st item = (some v, st)) ∧
    (∀ smtp, item.isExchange = true →
       List.lookup (strLower item.address) st.smtp_cache = none →
       item.resolver = .okAddr smtp →
       ((st.items_since_last_save + 1 = env.cache_save_interval →
           (get_smtp_address env st item).2.items_since_last_save = 0 ∧
           (get_smtp_address env st item).2.store =
             dictInsert (strLower item.address) smtp st.smtp_cache) ∧
        (st.items_since_last_save + 1 < env.cache_save_interval →
           (get_smtp_address env st item).2.items_since_last_save =
             st.items_since_last_save + 1 ∧
           (get_smtp_address env st item).2.store = st.store))) := by
  constructor
  · intro v hex hv
    simp [get_smtp_address, hex, hv]
  · intro smtp hex hm hr
    constructor
    · intro heq
      have hge : st.items_since_last_save + 1 ≥ env.cache_save_interval := by
        omega
      simp [get_smtp_address, hex, hm, hr, hge, save_smtp_cache, hs]
    · intro hlt2
      have hge : ¬ st.items_since_last_save + 1 ≥ env.cache_save_interval :=
        by omega
      simp [get_smtp_address, hex, hm, hr, hge]

def wEnv : CacheEnv := ⟨2, true⟩
def wSt0 : CacheState := ⟨[], 0, [], []⟩
def wItemA : MailItem := ⟨true, "a".data, .okAddr "x".data, "b".data, [], []⟩

/-- Witness for the amended C4: one miss below the threshold bumps the
counter and leaves the store untouched. -/
theorem C4_flush_exactly_at_interval_witness :
    (get_smtp_address wEnv wSt0 wItemA).2.items_since_last_save =
      wSt0.items_since_last_save + 1 ∧
    (get_smtp_address wEnv wSt0 wItemA).2.store = wSt0.store :=
  ((C4_flush_exactly_at_interval wEnv wSt0 wItemA rfl (by decide)).2
      "x".data rfl (by decide) rfl).2 (by decide)

def failItem (ex sea : Str) : MailItem := ⟨true, ex, .noUser, sea, [], []⟩
def okItem (ex smtp : Str) : MailItem := ⟨true, ex, .okAddr smtp, [], [], []⟩

/-- The state after `N` calls of `get_smtp_address` for an address whose
resolver yields nothing. -/
def afterFails (env : CacheEnv) (ex sea : Str) (N : Nat)
    (st : CacheState) : CacheState :=
  (fun s => (get_smtp_address env s (failItem ex sea)).2)^[N] st

/-- A call whose resolver yields nothing leaves the state unchanged. -/
lemma get_failItem_state (env : CacheEnv) (s : CacheState) (ex sea : Str) :
    (get_smtp_address env s (failItem ex sea)).2 = s := by
  simp only [get_smtp_address, failItem, if_true]
  rcases h : List.lookup (strLower ex) s.smtp_cache with _ | v <;> simp [h]

lemma afterFails_eq (env : CacheEnv) (ex sea : Str) (N : Nat)
    (st : CacheState) : afterFails env ex sea N st = st :=
  Function.iterate_fixed (get_failItem_state env st ex sea) N

/-- Claim C6: resolver failures are never cached nor persisted — after any
number `N` of failed resolutions of an unseen address followed by one
successful one, a flush leaves the backing store with exactly one row for
that address, carrying the successful value. -/
theorem C6_failed_resolutions_never_persisted (env : CacheEnv)
    (st : CacheState) (ex smtp sea : Str) (N : Nat)
    (hs : env.saveOk = true)
    (hm : List.lookup (strLower ex) st.smtp_cache = none) :
    afterFails env ex sea N st = st ∧
    countKey (strLower ex)
      (save_smtp_cache env.saveOk
        (get_smtp_address env (afterFails env ex sea N st)
          (okItem ex smtp)).2).store = 1 ∧
    List.lookup (strLower ex)
      (save_smtp_cache env.saveOk
        (get_smtp_address env (afterFails env ex sea N st)
          (okItem ex smtp)).2).store = some smtp := by
  have hN := afterFails_eq env ex sea N st
  refine ⟨hN, ?_, ?_⟩ <;>
  · rw [hN]
    have hcache :
        (get_smtp_address env st (okItem ex smtp)).2.smtp_cache =
          dictInsert (strLower ex) smtp st.smtp_cache :=
      get_smtp_cache_insert env st (okItem ex smtp) smtp rfl hm rfl
    have hstore :
        (save_smtp_cache env.saveOk
          (get_smtp_address env st (okItem ex smtp)).2).store =
          dictInsert (strLower ex) smtp st.smtp_cache := by
      rw [hs]
      simpa [save_smtp_cache] using hcache
    rw [hstore, dictInsert_of_not_mem _ _ _ (lookup_none_keys _ _ hm)]
    first
    | rw [countKey_append, countKey_eq_zero _ _ hm]
      simp [countKey]
    | rw [lookup_append_right _ _ _ hm]
      simp [List.lookup]

/-- Witness for C6: two failed lookups of `"A"` then a successful one; the
flushed table holds exactly one row `("a", "x")`. -/
theorem C6_failed_resolutions_never_persisted_witness :
    afterFails wEnv "A".data "f".data 2 wSt0 = wSt0 ∧
    countKey (strLower "A".data)
      (save_smtp_cache wEnv.saveOk
        (get_smtp_address wEnv (afterFails wEnv "A".data "f".data 2 wSt0)
          (okItem "A".data "x".data)).2).store = 1 ∧
    List.lookup (strLower "A".data)
      (save_smtp_cache wEnv.saveOk
        (get_smtp_address wEnv (afterFails wEnv "A".data "f".data 2 wSt0)
          (okItem "A".data "x".data)).2).store = some "x".data :=
  C6_failed_resolutions_never_persisted wEnv wSt0 "A".data "x".data
    "f".data 2 rfl (by decide)

/-- Rebuilding a dict from pairs whose keys are fresh for the accumulator,
lower-case invariant and pairwise distinct just appends them in order. -/
lemma foldl_dictInsert_fresh (m : List (Str × Str)) :
    ∀ acc : List (Str × Str), (m.map Prod.fst).Nodup →
    (∀ p ∈ m, strLower p.1 = p.1) →
    (∀ p ∈ m, ∀ q ∈ acc, q.1 ≠ p.1) →
    m.foldl (fun d p => dictInsert (strLower p.1) p.2 d) acc = acc ++ m := by
  induction m with
  | nil => intro acc _ _ _; simp
  | cons hd tl ih =>
      intro acc hnd hlc hdisj
      obtain ⟨k, v⟩ := hd
      have hk : strLower k = k := hlc (k, v) (by simp)
      have hfresh : ∀ q ∈ acc, q.1 ≠ k := fun q hq =>
        hdisj (k, v) (by simp) q hq
      rw [List.foldl_cons]
      have hins : dictInsert (strLower (k, v).1) (k, v).2 acc =
          acc ++ [(k, v)] := by
        rw [hk]
        exact dictInsert_of_not_mem k v acc hfresh
      rw [hins]
      have hknotin : k ∉ tl.map Prod.fst := by
        have := hnd
        simp only [List.map_cons, List.nodup_cons] at this
        exact this.1
      rw [ih (acc ++ [(k, v)]) (by
            have := hnd
            simp only [List.map_cons, List.nodup_cons] at this
            exact this.2)
          (fun p hp => hlc p (by simp [hp]))
          (fun p hp q hq => by
            rcases List.mem_append.mp hq with h1 | h1
            · exact hdisj p (by simp [hp]) q h1
            · have hq1 : q = (k, v) := by simpa using h1
              rw [hq1]
              intro hh
              have hh' : k = p.1 := hh
              exact hknotin (hh' ▸ List.mem_map_of_mem Prod.fst hp))]
      simp

/-- Claim C7: for a cache map obeying the maintained invariant (keys
lower-case and pairwise distinct — every key is inserted lower-cased and a
dict holds each key once), `load_cache_from_db` applied to the table written
by a successful `save_smtp_cache` reconstructs exactly the flushed map; the
lower-casing of keys on read is the identity on it. -/
theorem C7_flush_load_roundtrip (st : CacheState)
    (hnd : (st.smtp_cache.map Prod.fst).Nodup)
    (hlc : ∀ p ∈ st.smtp_cache, strLower p.1 = p.1) :
    load_cache_from_db true true (save_smtp_cache true st).store =
      st.smtp_cache := by
  have hstore : (save_smtp_cache true st).store = st.smtp_cache := by
    simp [save_smtp_cache]
  rw [hstore]
  show st.smtp_cache.foldl (fun d p => dictInsert (strLower p.1) p.2 d) [] =
    st.smtp_cache
  rw [foldl_dictInsert_fresh st.smtp_cache [] hnd hlc (by simp)]
  simp

/-- Witness for C7: a two-entry lower-case cache survives the
flush-then-load round trip unchanged. -/
theorem C7_flush_load_roundtrip_witness :
    load_cache_from_db true true
      (save_smtp_cache true
        ⟨[("a".data, "x".data), ("b".data, "y".data)], 0, [], []⟩).store =
      [("a".data, "x".data), ("b".data, "y".data)] :=
  C7_flush_load_roundtrip
    ⟨[("a".data, "x".data), ("b".data, "y".data)], 0, [], []⟩
    (by decide) (by decide)

/-- Claim C9: a failing backing-store write inside `save_smtp_cache` leaves
the in-memory cache and the pending-write counter untouched (the reset on
line 125 sits inside the `try` after the write); consequently, from any
state whose counter has already reached the threshold, the very next
successfully resolved cache miss attempts another flush (one more
`DBSaveError` line), rather than waiting for a whole new interval. -/
theorem C9_failed_flush_keeps_counter (env : CacheEnv) (st : CacheState)
    (item : MailItem) (smtp : Str) (hs : env.saveOk = false) :
    ((save_smtp_cache false st).smtp_cache = st.smtp_cache ∧
     (save_smtp_cache false st).items_since_last_save =
       st.items_since_last_save) ∧
    (st.items_since_last_save ≥ env.cache_save_interval →
     item.isExchange = true →
     List.lookup (strLower item.address) st.smtp_cache = none →
     item.resolver = .okAddr smtp →
     ((get_smtp_address env st item).2.errLog =
        st.errLog ++ [dbSaveErrorS] ∧
      (get_smtp_address env st item).2.smtp_cache =
        dictInsert (strLower item.address) smtp st.smtp_cache ∧
      (get_smtp_address env st item).2.items_since_last_save =
        st.items_since_last_save + 1)) := by
  constructor
  · constructor <;> simp [save_smtp_cache]
  · intro hge hex hm hr
    have hc : st.items_since_last_save + 1 ≥ env.cache_save_interval := by
      omega
    simp [get_smtp_address, hex, hm, hr, hc, save_smtp_cache, hs]

/-- Witness for C9: after the failed flush of `C4_counterexample`'s first
resolution, the very next resolved miss immediately attempts (and fails)
another flush, logging a second `DBSaveError`. -/
theorem C9_failed_flush_keeps_counter_witness :
    (get_smtp_address cexEnv cexSt1
        ⟨true, "b".data, .okAddr "y".data, "c".data, [], []⟩).2.errLog =
      cexSt1.errLog ++ [dbSaveErrorS] ∧
    (get_smtp_address cexEnv cexSt1
        ⟨true, "b".data, .okAddr "y".data, "c".data, [], []⟩).2.smtp_cache =
      dictInsert (strLower "b".data) "y".data cexSt1.smtp_cache ∧
    (get_smtp_address cexEnv cexSt1
        ⟨true, "b".data, .okAddr "y".data, "c".data, [], []⟩).2.items_since_last_save =
      cexSt1.items_since_last_save + 1 :=
  (C9_failed_flush_keeps_counter cexEnv cexSt1
      ⟨true, "b".data, .okAddr "y".data, "c".data, [], []⟩ "y".data rfl).2
    (by decide) rfl (by decide) rfl

/-! ## Claims about the action executor -/

/-- When every path segment can be found or created, the folder walk
succeeds and yields the full path. -/
lemma get_folder_recursive_all_ok (segOk : Str → Bool)
    (h : ∀ p, segOk p = true) (root : List Str) (folder_path : Str) :
    get_folder_recursive segOk root folder_path =
      some (root ++ folder_path.splitOn bslashC) := by
  show (folder_path.splitOn bslashC).foldl _ (some root) = _
  generalize folder_path.splitOn bslashC = parts
  induction parts generalizing root with
  | nil => simp
  | cons hd tl ih =>
      rw [List.foldl_cons]
      simp only [h hd, if_true]
      rw [ih (root ++ [hd])]
      simp

def envAll : MailEnv := ⟨true, true, fun _ => true⟩
def est0 : ExecState := ⟨some [], [], []⟩

/-- Claim C2, counterexample: the deletion sentinel in the code is
`"ToDelete"`, not `"delete"`. A destination equal to `"delete"` is treated
as a folder name: the message is moved into a folder named `delete` (its
location is not `none`) although `execute_action` returns true; the
destination `"ToDelete"`, although different from `"delete"`, deletes. -/
theorem C2_counterexample :
    "delete".data ≠ toDeleteS ∧
    (execute_action envAll est0 "delete".data [] [] [] []).1 = true ∧
    (execute_action envAll est0 "delete".data [] [] [] []).2.location =
      some ["delete".data] ∧
    (execute_action envAll est0 "ToDelete".data [] [] [] []).2.location =
      none := by
  refine ⟨by decide, by decide, by decide, by decide⟩

/-- Claim C2 (amended): when the collaborator mail object cooperates,
`execute_action` returns true, and it deletes the message exactly when the
destination equals the case-sensitive sentinel `"ToDelete"`; any other
destination moves the message to the folder resolved by splitting the
destination on `'\'` under the inbox. -/
theorem C2_delete_sentinel (env : MailEnv) (st : ExecState)
    (dest_name : Str) (inbox : List Str) (trigger match_type subject : Str)
    (hdel : env.deleteOk = true) (hmov : env.moveOk = true)
    (hseg : ∀ p, env.segmentOk p = true) :
    (execute_action env st dest_name inbox trigger match_type subject).1 =
      true ∧
    ((execute_action env st dest_name inbox trigger match_type
        subject).2.location = none ↔ dest_name = toDeleteS) ∧
    (dest_name ≠ toDeleteS →
      (execute_action env st dest_name inbox trigger match_type
          subject).2.location =
        some (inbox ++ dest_name.splitOn bslashC)) := by
  by_cases hd : dest_name = toDeleteS
  · simp [execute_action, hd, hdel]
  · have hfold := get_folder_recursive_all_ok env.segmentOk hseg inbox
      dest_name
    simp [execute_action, hd, hfold, hmov]

/-- Witness for the amended C2: destination `Projects\2024` creates/walks
both segments and moves the message there, returning true. -/
theorem C2_delete_sentinel_witness :
    (execute_action envAll est0 "Projects\\2024".data [] [] [] []).1 =
      true ∧
    ((execute_action envAll est0 "Projects\\2024".data [] [] []
        []).2.location = none ↔ "Projects\\2024".data = toDeleteS) ∧
    ("Projects\\2024".data ≠ toDeleteS →
      (execute_action envAll est0 "Projects\\2024".data [] [] []
          []).2.location =
        some ([] ++ ("Projects\\2024".data).splitOn bslashC)) :=
  C2_delete_sentinel envAll est0 "Projects\\2024".data [] [] [] [] rfl rfl
    (fun _ => rfl)

/-- Claim C8: whenever the collaborator mail object fails during
`execute_action` — deletion rejected, a folder segment neither found nor
creatable, or the move rejected — the call returns false, the message stays
in its original location, nothing is added to the live log, and one
`ActionError` line carrying the destination is logged. The method catches
every such failure, so the run continues. -/
theorem C8_action_failure_leaves_message (env : MailEnv) (st : ExecState)
    (dest_name : Str) (inbox : List Str) (trigger match_type subject : Str)
    (hf : (dest_name = toDeleteS ∧ env.deleteOk = false) ∨
          (dest_name ≠ toDeleteS ∧
            (get_folder_recursive env.segmentOk inbox dest_name = none ∨
             env.moveOk = false))) :
    (execute_action env st dest_name inbox trigger match_type subject).1 =
      false ∧
    (execute_action env st dest_name inbox trigger match_type
        subject).2.location = st.location ∧
    (execute_action env st dest_name inbox trigger match_type
        subject).2.liveLog = st.liveLog ∧
    (execute_action env st dest_name inbox trigger match_type
        subject).2.errLog = st.errLog ++ [(actionErrorS, dest_name)] := by
  rcases hf with ⟨hd, hD⟩ | ⟨hd, hmf⟩
  · simp [execute_action, hd, hD]
  · rcases hmf with hg | hM
    · simp [execute_action, hd, hg]
    · cases hgf : get_folder_recursive env.segmentOk inbox dest_name with
      | none => simp [execute_action, hd, hgf]
      | some f => simp [execute_action, hd, hgf, hM]

/-- Witness for C8: a denied deletion logs `ActionError|ToDelete`, returns
false and leaves the message where it was. -/
theorem C8_action_failure_leaves_message_witness :
    (execute_action ⟨false, true, fun _ => true⟩ est0 toDeleteS [] [] []
        []).1 = false ∧
    (execute_action ⟨false, true, fun _ => true⟩ est0 toDeleteS [] [] []
        []).2.location = est0.location ∧
    (execute_action ⟨false, true, fun _ => true⟩ est0 toDeleteS [] [] []
        []).2.liveLog = est0.liveLog ∧
    (execute_action ⟨false, true, fun _ => true⟩ est0 toDeleteS [] [] []
        []).2.errLog = est0.errLog ++ [(actionErrorS, toDeleteS)] :=
  C8_action_failure_leaves_message ⟨false, true, fun _ => true⟩ est0
    toDeleteS [] [] [] [] (Or.inl ⟨rfl, rfl⟩)

/-! ## Claims about rule loading -/

def wbC : Workbook :=
  [("S1".data, [("c1".data, [Cell.pystr "Alpha".data])]),
   ("S2".data, [("c2".data, [Cell.pystr "Gamma".data])])]
def infoG1 : SheetInfo :=
  ⟨some "S1".data, some "D1".data, some "c1".data, none, none⟩
def infoBad : SheetInfo :=
  ⟨some "S1".data, none, some "c1".data, none, none⟩
def infoG2 : SheetInfo :=
  ⟨some "S2".data, some "D3".data, some "c2".data, none, none⟩
def smC : List (Str × SheetInfo) :=
  [("KeywordA".data, infoG1), ("BadEmail".data, infoBad),
   ("KeywordC".data, infoG2)]

/-- Claim C3, counterexample: the single `try` of `load_data` wraps the
whole sheet loop, so the malformed second entry (`BadEmail` lacks its
required `destination_name`) aborts the remainder of the load: the
well-formed entry `KeywordC` that follows it is NOT loaded — only `alpha`
from the entry before the bad one is present — while one `DataLoaderError`
line is reported. -/
theorem C3_counterexample :
    (load_data true wbC smC ⟨[], []⟩).2 = some dataLoaderErrorS ∧
    (load_data true wbC smC ⟨[], []⟩).1.keyword_rules.map Prod.fst =
      ["alpha".data] ∧
    List.lookup "gamma".data
      (load_data true wbC smC ⟨[], []⟩).1.keyword_rules = none := by
  refine ⟨by decide, by decide, by decide⟩

/-- Splitting the sheet loop at any point: the tail runs only if the front
finished without an escaping exception. -/
lemma loadSheets_append (wb : Workbook) (pre rest : List (Str × SheetInfo)) :
    ∀ t : Tables, loadSheets wb (pre ++ rest) t =
      match loadSheets wb pre t with
      | (t', true) => loadSheets wb rest t'
      | (t', false) => (t', false) := by
  induction pre with
  | nil => intro t; rfl
  | cons hd tl ih =>
      intro t
      obtain ⟨rn, info⟩ := hd
      rw [List.cons_append]
      rcases hE : loadEntry wb rn info t with ⟨t', b⟩
      cases b
      · simp only [loadSheets, hE]
      · simp only [loadSheets, hE]
        exact ih t'

/-- Claim C3 (amended): a malformed row is reported to the error channel,
but it aborts the remainder of the load rather than being skipped: the rules
loaded from rows before it (and the partial inserts of the failing row
itself) are retained, every row after it is ignored, and `load_data`
returns normally — one bad row never crashes the process, but it does end
that run's loading. -/
theorem C3_bad_row_aborts_rest (wb : Workbook)
    (pre rest : List (Str × SheetInfo)) (rn : Str) (info : SheetInfo)
    (t t1 : Tables) (h1 : loadSheets wb pre t = (t1, true))
    (h2 : (loadEntry wb rn info t1).2 = false) :
    load_data true wb (pre ++ (rn, info) :: rest) t =
      ((loadEntry wb rn info t1).1, some dataLoaderErrorS) := by
  have hsplit := loadSheets_append wb pre ((rn, info) :: rest) t
  rw [h1] at hsplit
  rcases hE : loadEntry wb rn info t1 with ⟨t2, b⟩
  rw [hE] at h2
  subst h2
  simp only [loadSheets, hE] at hsplit
  simp only [load_data, if_true, hsplit, hE]

def tAfterG1 : Tables :=
  ⟨[], [("alpha".data, ⟨"D1".data, subjectOnlyS⟩)]⟩

/-- Witness for the amended C3: on the concrete three-entry sheet map the
load returns the tables as they stood at the failing `BadEmail` entry,
with the error reported. -/
theorem C3_bad_row_aborts_rest_witness :
    load_data true wbC
        ([("KeywordA".data, infoG1)] ++
          ("BadEmail".data, infoBad) :: [("KeywordC".data, infoG2)])
        ⟨[], []⟩ =
      ((loadEntry wbC "BadEmail".data infoBad tAfterG1).1,
        some dataLoaderErrorS) :=
  C3_bad_row_aborts_rest wbC [("KeywordA".data, infoG1)]
    [("KeywordC".data, infoG2)] "BadEmail".data infoBad ⟨[], []⟩ tAfterG1
    (by decide) (by decide)

end InboxSorter
